import Mathlib

/-!
Verification of the veritas-kanban Workflow Step Execution Engine
(`ToolPolicyService` and `WorkflowStepExecutor`).

The TypeScript source is shallowly embedded: JS objects of type
`Record<string, unknown>` become association lists over a JSON-like
`Value` universe, `Map` becomes an association list with replace-on-insert,
the file system owned by a service becomes an explicit state component,
and a JS function that can `throw` becomes a function returning
`Except String _` paired with the (unchanged on throw) state.
External npm libraries (`sanitize-filename`, `yaml`, `JSON`) are taken as
function parameters, never modelled.
-/

namespace VeritasKanban

/-- JSON-like universe for the dynamically typed `unknown` values stored in
a run's context (`Record<string, unknown>`).  Objects are association lists
in key order.  A JS `undefined` entry is modelled by key absence (the two are
indistinguishable to every embedded operation, which only reads values through
lookups and truthiness/definedness tests). -/
inductive Value where
  | null : Value
  | bool : Bool → Value
  | num : Int → Value
  | str : String → Value
  | obj : List (String × Value) → Value
  deriving Repr

/-- JS truthiness for the embedded values (`undefined`/key absence is handled
at the `Option Value` level by `truthyOpt`). -/
def Value.truthy : Value → Bool
  | .null => false
  | .bool b => b
  | .num n => n != 0
  | .str s => s != ""
  | .obj _ => true

/-- Truthiness of a property read: an absent key (JS `undefined`) is falsy. -/
def truthyOpt : Option Value → Bool
  | some v => v.truthy
  | none => false

/-- JS `String(value)` on the embedded universe. -/
def valueToString : Value → String
  | .null => "null"
  | .bool b => if b then "true" else "false"
  | .num n => toString n
  | .str s => s
  | .obj _ => "[object Object]"

/-- Association-list lookup: the model of JS property access `m[k]` and of
`Map.prototype.get`. -/
def alookup {α : Type} (m : List (String × α)) (k : String) : Option α :=
  match m with
  | [] => none
  | (a, v) :: rest => if a = k then some v else alookup rest k

/-- Association-list insert/replace: the model of JS property assignment,
of object-spread override, and of `Map.prototype.set` (the key keeps its
original position when already present, as in JS). -/
def ainsert {α : Type} (m : List (String × α)) (k : String) (v : α) :
    List (String × α) :=
  match m with
  | [] => [(k, v)]
  | (a, w) :: rest => if a = k then (a, v) :: rest else (a, w) :: ainsert rest k v

/-- Association-list erase: the model of `Map.prototype.delete` and of
removing a file from a directory. -/
def aerase {α : Type} (m : List (String × α)) (k : String) : List (String × α) :=
  m.filter (fun e => e.1 != k)

/-- JS whitespace recognized by `String.prototype.trim` (the characters that
can actually occur in the embedded inputs). -/
def jsWhite (c : Char) : Bool :=
  c = ' ' || c = '\t' || c = '\n' || c = '\r' || c = '\x0b' || c = '\x0c'

/-- Model of JS `String.prototype.trim`. -/
def jsTrim (s : String) : String :=
  (((s.data.dropWhile jsWhite).reverse.dropWhile jsWhite).reverse).asString

/-- Model of JS `String.prototype.toLowerCase` (ASCII range, which covers
every role name in the source). -/
def lowerAscii (s : String) : String :=
  (s.data.map Char.toLower).asString

/-- Contiguous-sublist check used to model JS `String.prototype.includes`. -/
def listIsInfixOf (needle haystack : List Char) : Bool :=
  match haystack with
  | [] => needle.isEmpty
  | _ :: tl => needle.isPrefixOf haystack || listIsInfixOf needle tl

/-- Model of JS `String.prototype.includes`: substring containment. -/
def strIncludes (s sub : String) : Bool :=
  listIsInfixOf sub.data s.data

/-- Deduplication keeping the first occurrence of each element, the iteration
order of a JS `Set` built from a list. -/
def dedupKeepFirst (l : List String) : List String :=
  l.foldl (fun acc x => if acc.contains x then acc else acc ++ [x]) []

/- ===================================================================
   ToolPolicyService (src/unnamed/part_001, lines 1–329)
   =================================================================== -/

/-- `ToolPolicy` record (`{role, allowed, denied, description?}`). -/
structure ToolPolicy where
  role : String
  allowed : List String
  denied : List String
  description : Option String
  deriving Repr, DecidableEq

/-- `DEFAULT_ROLES` — the fixed set of protected role names. -/
def DEFAULT_ROLES : List String :=
  ["planner", "developer", "reviewer", "tester", "deployer"]

/-- `MAX_POLICIES` validation limit. -/
def MAX_POLICIES : Nat := 50

/-- `MAX_TOOLS_PER_POLICY` validation limit. -/
def MAX_TOOLS_PER_POLICY : Nat := 100

/-- `MAX_ROLE_NAME_LENGTH` validation limit. -/
def MAX_ROLE_NAME_LENGTH : Nat := 50

/-- `MAX_DESCRIPTION_LENGTH` validation limit. -/
def MAX_DESCRIPTION_LENGTH : Nat := 500

/-- `DEFAULT_POLICIES` — the five built-in role policies. -/
def DEFAULT_POLICIES : List ToolPolicy :=
  [ { role := "planner"
      allowed := ["Read", "web_search", "web_fetch", "browser", "image", "nodes"]
      denied := ["Write", "Edit", "exec", "message"]
      description := some "Read-only access for planning and analysis. Can search and browse, but cannot modify files or execute commands." },
    { role := "developer"
      allowed := ["*"]
      denied := []
      description := some "Full access to all tools. Can read, write, execute commands, and use all available capabilities." },
    { role := "reviewer"
      allowed := ["Read", "exec", "web_search", "web_fetch", "browser", "image", "nodes"]
      denied := ["Write", "Edit", "message"]
      description := some "Read and execute access for code review. Can run tests and checks, but cannot modify the code being reviewed." },
    { role := "tester"
      allowed := ["Read", "exec", "browser", "web_search", "web_fetch", "image", "nodes"]
      denied := ["Write", "Edit", "message"]
      description := some "Read, execute, and browser access for testing. Can run tests and interact with UIs, but cannot modify source code." },
    { role := "deployer"
      allowed := ["*"]
      denied := []
      description := some "Full access for deployment operations. Can execute deployment scripts, modify configs, and interact with production systems." } ]

/-- State of a `ToolPolicyService` instance: the in-memory `Map` cache and the
policies directory on disk.  A disk entry `(role, p)` models the file
`<role>.json` whose content parses to `p` (JSON (de)serialization of a
well-formed record is the identity in this embedding). -/
structure PolicyStore where
  cache : List (String × ToolPolicy)
  disk : List (String × ToolPolicy)
  deriving Repr, DecidableEq

/-- Role-name normalization `role.trim().toLowerCase()`. -/
def normalizeRole (role : String) : String :=
  lowerAscii (jsTrim role)

/-- `validatePolicy` — returns the message of the first failing check, `none`
when the policy is valid.  The overlap list is the deduplicated allowed list
(insertion order, as `new Set`) filtered by denied membership. -/
def validatePolicy (p : ToolPolicy) : Option String :=
  if p.role = "" then
    some "Policy must have a role name"
  else if p.role.length > MAX_ROLE_NAME_LENGTH then
    some ("Role name exceeds maximum length of " ++ toString MAX_ROLE_NAME_LENGTH ++ " characters")
  else if p.allowed.length > MAX_TOOLS_PER_POLICY then
    some ("Allowed tools list exceeds maximum of " ++ toString MAX_TOOLS_PER_POLICY ++ " tools")
  else if p.denied.length > MAX_TOOLS_PER_POLICY then
    some ("Denied tools list exceeds maximum of " ++ toString MAX_TOOLS_PER_POLICY ++ " tools")
  else if (p.description.getD "").length > MAX_DESCRIPTION_LENGTH then
    some ("Description exceeds maximum length of " ++ toString MAX_DESCRIPTION_LENGTH ++ " characters")
  else
    let overlap := (dedupKeepFirst p.allowed).filter (fun t => p.denied.contains t)
    if overlap.isEmpty then none
    else some ("Tools cannot be both allowed and denied: " ++ String.intercalate ", " overlap)

/-- `getToolPolicy` — cache first, then disk (validating and caching a loaded
record); `(ok none)` models the `ENOENT` path returning `null`. -/
def getToolPolicy (st : PolicyStore) (role : String) :
    Except String (Option ToolPolicy) × PolicyStore :=
  let n := normalizeRole role
  match alookup st.cache n with
  | some p => (.ok (some p), st)
  | none =>
    match alookup st.disk n with
    | none => (.ok none, st)
    | some p =>
      match validatePolicy p with
      | some msg => (.error ("Invalid tool policy: " ++ msg), st)
      | none => (.ok (some p), { st with cache := ainsert st.cache n p })

/-- `savePolicy` — validate, enforce `MAX_POLICIES` for roles missing from the
cache, then write the record and refresh the cache. -/
def savePolicy (st : PolicyStore) (policy : ToolPolicy) :
    Except String Unit × PolicyStore :=
  match validatePolicy policy with
  | some msg => (.error msg, st)
  | none =>
    let n := normalizeRole policy.role
    if (alookup st.cache n).isNone ∧ st.disk.length ≥ MAX_POLICIES then
      (.error ("Maximum policy limit (" ++ toString MAX_POLICIES ++ ") reached. Delete unused policies before creating new ones."), st)
    else
      (.ok (), { cache := ainsert st.cache n policy, disk := ainsert st.disk n policy })

/-- `deletePolicy` — protected default roles fail; otherwise `fs.unlink`
(throwing `ENOENT` when the file is absent) then cache eviction. -/
def deletePolicy (st : PolicyStore) (role : String) :
    Except String Unit × PolicyStore :=
  let n := normalizeRole role
  if DEFAULT_ROLES.contains n then
    (.error ("Cannot delete default policy: " ++ n ++ ". Default policies can only be modified, not deleted."), st)
  else
    match alookup st.disk n with
    | none => (.error "ENOENT", st)
    | some _ => (.ok (), { cache := aerase st.cache n, disk := aerase st.disk n })

/-- `validateToolAccess` — permissive default, denied precedence, wildcard,
then explicit allow. -/
def validateToolAccess (st : PolicyStore) (role tool : String) :
    Except String Bool × PolicyStore :=
  match getToolPolicy st role with
  | (.error e, st2) => (.error e, st2)
  | (.ok none, st2) => (.ok true, st2)
  | (.ok (some p), st2) =>
    (.ok (if p.denied.contains tool then false
          else if p.allowed.contains "*" then true
          else p.allowed.contains tool), st2)

/-- The `{allowed?, denied?}` filter handed to the session capability;
`none` models an absent key. -/
structure ToolFilter where
  allowed : Option (List String)
  denied : Option (List String)
  deriving Repr, DecidableEq

/-- `getToolFilterForRole` — empty filter when no policy; denied passed through
when non-empty; allowed passed through when non-empty and wildcard-free. -/
def getToolFilterForRole (st : PolicyStore) (role : String) :
    Except String ToolFilter × PolicyStore :=
  match getToolPolicy st role with
  | (.error e, st2) => (.error e, st2)
  | (.ok none, st2) => (.ok ⟨none, none⟩, st2)
  | (.ok (some p), st2) =>
    (.ok { denied := if p.denied.length > 0 then some p.denied else none
           allowed := if p.allowed.length > 0 ∧ ¬ p.allowed.contains "*" then some p.allowed else none },
     st2)

/-- One iteration of the `loadDefaults` loop: cache the default policy and
persist it only when no record exists yet for that role. -/
def loadDefaultsStep (st : PolicyStore) (p : ToolPolicy) : PolicyStore :=
  { cache := ainsert st.cache p.role p
    disk := if (alookup st.disk p.role).isSome then st.disk else ainsert st.disk p.role p }

/-- `loadDefaults` — run the loop over `DEFAULT_POLICIES`. -/
def loadDefaults (st : PolicyStore) : PolicyStore :=
  DEFAULT_POLICIES.foldl loadDefaultsStep st

/-- The `ToolPolicyService` constructor over a policies directory already
holding `disk0`: an empty cache, then `loadDefaults`. -/
def mkStore (disk0 : List (String × ToolPolicy)) : PolicyStore :=
  loadDefaults { cache := [], disk := disk0 }

/- ===================================================================
   WorkflowStepExecutor (src/unnamed/part_001, lines 331–827)
   =================================================================== -/

/-- Step type tagged union (`agent | loop | gate | parallel`). -/
inductive StepType where
  | agent | loop | gate | parallel
  deriving Repr, DecidableEq

/-- StepRun status values. -/
inductive StepStatus where
  | pending | running | completed | failed
  deriving Repr, DecidableEq

/-- String form of a status (its TS literal value). -/
def statusToString : StepStatus → String
  | .pending => "pending"
  | .running => "running"
  | .completed => "completed"
  | .failed => "failed"

/-- Execution record of one step within a run. -/
structure StepRun where
  stepId : String
  status : StepStatus
  duration : Option Nat
  deriving Repr, DecidableEq

/-- `WorkflowAgent` — binds an agent id to a role and model. -/
structure WorkflowAgent where
  id : String
  role : Option String
  model : Option String
  deriving Repr, DecidableEq

/-- Session mode literals. -/
inductive SessionMode where
  | fresh | reuse
  deriving Repr, DecidableEq

/-- Session context literals. -/
inductive SessionCtx where
  | minimal | full | custom
  deriving Repr, DecidableEq

/-- Session cleanup literals. -/
inductive SessionCleanup where
  | delete | keep
  deriving Repr, DecidableEq

def modeToString : SessionMode → String
  | .fresh => "fresh"
  | .reuse => "reuse"

def ctxToString : SessionCtx → String
  | .minimal => "minimal"
  | .full => "full"
  | .custom => "custom"

def cleanupToString : SessionCleanup → String
  | .delete => "delete"
  | .keep => "keep"

/-- A step's explicit `session` block (all sub-fields optional). -/
structure SessionBlock where
  mode : Option SessionMode
  context : Option SessionCtx
  cleanup : Option SessionCleanup
  timeout : Option Nat
  includeOutputsFrom : Option (List String)
  deriving Repr, DecidableEq

/-- A step's `output` hint (`step.output?.file`). -/
structure OutputHint where
  file : Option String
  deriving Repr, DecidableEq

/-- Declarative `WorkflowStep`. -/
structure WorkflowStep where
  id : String
  type : StepType
  agent : Option String
  input : Option String
  output : Option OutputHint
  acceptance_criteria : Option (List String)
  session : Option SessionBlock
  fresh_session : Option Bool
  timeout : Option Nat
  deriving Repr, DecidableEq

/-- `WorkflowRun`.  The source stores the workflow definition inside the
dynamic bag as `run.context.workflow` and reads it back through TS casts;
in the embedding the two values those casts extract — the agent list and
`config.fresh_session_default` — are carried as typed fields (`agents`,
`freshSessionDefault`) beside the string-keyed bag. -/
structure WorkflowRun where
  id : String
  workflowId : String
  taskId : String
  context : List (String × Value)
  steps : List StepRun
  agents : Option (List WorkflowAgent)
  freshSessionDefault : Option Bool

/-- Resolved session behavior for one step execution. -/
structure StepSessionConfig where
  mode : SessionMode
  context : SessionCtx
  cleanup : SessionCleanup
  timeout : Nat
  includeOutputsFrom : Option (List String)
  deriving Repr, DecidableEq

/-- JS `a || b` on an optional number: `0` is falsy, so a present zero still
falls through to the default. -/
def jsOrNat : Option Nat → Nat → Nat
  | some n, d => if n = 0 then d else n
  | none, d => d

/-- `buildSessionConfig` (the `run` parameter of the source is unused by its
body and omitted; `defaultConfig` is the optional
`workflow.config.fresh_session_default` boolean). -/
def buildSessionConfig (step : WorkflowStep) (defaultConfig : Option Bool) :
    StepSessionConfig :=
  match step.session with
  | some sb =>
    { mode := sb.mode.getD .fresh
      context := sb.context.getD .minimal
      cleanup := sb.cleanup.getD .delete
      timeout := jsOrNat sb.timeout (jsOrNat step.timeout 600)
      includeOutputsFrom := sb.includeOutputsFrom }
  | none =>
    match step.fresh_session with
    | some fs =>
      { mode := if fs then .fresh else .reuse
        context := .minimal
        cleanup := .delete
        timeout := jsOrNat step.timeout 600
        includeOutputsFrom := none }
    | none =>
      { mode := if defaultConfig.getD true then .fresh else .reuse
        context := .minimal
        cleanup := .delete
        timeout := jsOrNat step.timeout 600
        includeOutputsFrom := none }

/-- Model of JS `String.prototype.split` with a single-character separator
(`"".split(sep)` is `[""]`, separators at the ends produce empty pieces). -/
def splitChars (sep : Char) (l : List Char) : List (List Char) :=
  l.foldr
    (fun c acc =>
      match acc with
      | [] => [[c]]
      | cur :: rest => if c = sep then [] :: cur :: rest else (c :: cur) :: rest)
    [[]]

/-- String form of `splitChars`. -/
def jsSplit (sep : Char) (s : String) : List String :=
  (splitChars sep s.data).map List.asString

/-- `getNestedValue` — dot-path traversal of nested mappings; any miss or
traversal into a non-mapping yields `undefined` (`none`). -/
def getNestedValue (obj : List (String × Value)) (path : String) : Option Value :=
  (jsSplit '.' path).foldl
    (fun current key =>
      match current with
      | some (Value.obj m) => alookup m key
      | _ => none)
    (some (Value.obj obj))

/-- Character-level model of
`template.replace(/\x7b\x7b([^\x7d]+)\x7d\x7d/g, cb)`: at each position a
match needs `\x7b\x7b`, one or more non-`\x7d` characters, then `\x7d\x7d`;
the callback substitutes the resolved value or re-emits the braces around the
trimmed key; a failed match advances the scan by one character. -/
def renderChars (ctx : List (String × Value)) : List Char → String
  | '{' :: '{' :: rest =>
    let content := rest.takeWhile (fun c => c != '}')
    let tail := rest.dropWhile (fun c => c != '}')
    if content ≠ [] ∧ tail.take 2 = ['}', '}'] then
      let key := jsTrim content.asString
      (match getNestedValue ctx key with
       | some v => valueToString v
       | none => "\x7b\x7b" ++ key ++ "\x7d\x7d") ++ renderChars ctx (tail.drop 2)
    else "\x7b" ++ renderChars ctx ('{' :: rest)
  | c :: rest => String.singleton c ++ renderChars ctx rest
  | [] => ""
termination_by l => l.length
decreasing_by
  all_goals simp_wf
  all_goals
    try (have h1 : ∀ l : List Char, (l.dropWhile (fun c => c != '}')).length ≤ l.length := by
           intro l
           induction l with
           | nil => simp [List.dropWhile]
           | cons hd tl ih =>
             by_cases h : (hd != '}') = true
             · simp only [List.dropWhile, h]
               exact Nat.le_succ_of_le ih
             · simp [List.dropWhile, h]
         have h2 := h1 rest
         simp [List.length_drop])
  all_goals omega

/-- `renderTemplate` — single-pass placeholder substitution. -/
def renderTemplate (template : String) (context : List (String × Value)) : String :=
  renderChars context template.data

/-- Model of `path.extname` for the inputs the engine passes it (a plain file
name or a slash-separated path). -/
def extname (p : String) : String :=
  let base := (jsSplit '/' p).getLastD ""
  let parts := jsSplit '.' base
  if parts.length ≤ 1 then ""
  else if parts.head? = some "" ∧ parts.length = 2 then ""
  else "." ++ parts.getLastD ""

/-- `parseStepOutput` — structured parse on a `.yml`/`.yaml`/`.json` output
hint, falling back to the raw text on a parse failure (`none` from the
external parser models a thrown exception). -/
def parseStepOutput (yamlP jsonP : String → Option Value) (rawOutput : String)
    (step : WorkflowStep) : Value :=
  if rawOutput = "" then .str rawOutput
  else
    let hintedFile := (match step.output with
                       | some o => o.file.getD ""
                       | none => "")
    let extension := lowerAscii (extname hintedFile)
    if extension = ".yml" ∨ extension = ".yaml" then
      match yamlP rawOutput with
      | some v => v
      | none => .str rawOutput
    else if extension = ".json" then
      match jsonP rawOutput with
      | some v => v
      | none => .str rawOutput
    else .str rawOutput

/-- `validateAcceptanceCriteria` — returns the first criterion that is not a
literal substring of the raw output, `none` when all pass (or none declared). -/
def validateAcceptanceCriteria (step : WorkflowStep) (output : String) :
    Option String :=
  (step.acceptance_criteria.getD []).find? (fun c => ! strIncludes output c)

/-- Per-run persisted state: the `progress.md` file (absent before the first
append) and the `step-outputs/` directory keyed by sanitized file name. -/
structure RunStore where
  progress : Option String
  outputs : List (String × String)

/-- The run-id guard shared by the persistence helpers:
`sanitizeFilename(runId)` (the external `sf`) must be non-empty and equal to
the input. -/
def validRunId (sf : String → String) (runId : String) : Bool :=
  sf runId != "" && sf runId == runId

/-- `loadProgressFile` — returns the file content, `none` when absent. -/
def loadProgressFile (sf : String → String) (runId : String) (store : RunStore) :
    Except String (Option String) :=
  if validRunId sf runId then .ok store.progress
  else .error ("Invalid run ID: " ++ runId)

/-- `MAX_PROGRESS_FILE_SIZE` — the 10 MiB progress-log ceiling. -/
def MAX_PROGRESS_FILE_SIZE : Nat := 10 * 1024 * 1024

/-- One progress-log entry. -/
def progressEntry (stepId timestamp output : String) : String :=
  "## Step: " ++ stepId ++ " (" ++ timestamp ++ ")\n\n" ++ output ++ "\n\n---\n\n"

/-- `appendProgressFile` — skip (without error) when the current file size in
bytes already exceeds the ceiling, else append (creating the file when
absent).  Returns the new file content. -/
def appendProgressFile (sf : String → String) (runId stepId timestamp : String)
    (output : String) (file : Option String) : Except String (Option String) :=
  if validRunId sf runId then
    match file with
    | some content =>
      if content.utf8ByteSize > MAX_PROGRESS_FILE_SIZE then .ok (some content)
      else .ok (some (content ++ progressEntry stepId timestamp output))
    | none => .ok (some (progressEntry stepId timestamp output))
  else .error ("Invalid run ID: " ++ runId)

/-- `saveStepOutput` — sanitize the run id, derive the artifact name from the
step id, write the artifact, return its path and the updated store. -/
def saveStepOutput (sf : String → String) (runsDir runId stepId : String)
    (output : String) (store : RunStore) : Except String (String × RunStore) :=
  if validRunId sf runId then
    let candidate := stepId ++ ".md"
    let safeName := if sf candidate = "" then stepId ++ ".md" else sf candidate
    let outputPath := runsDir ++ "/" ++ runId ++ "/step-outputs/" ++ safeName
    .ok (outputPath, { store with outputs := ainsert store.outputs safeName output })
  else .error ("Invalid run ID: " ++ runId)

/-- The per-step entry of the derived `steps` mapping. -/
def stepsEntry (v : Value) (sr : StepRun) : Value :=
  .obj (("output", v)
    :: ("status", .str (statusToString sr.status))
    :: (match sr.duration with
        | some d => [("duration", Value.num d)]
        | none => []))

/-- One iteration of the `buildStepsContext` loop: a StepRun contributes an
entry when it is completed and its recorded output is truthy
(JS `run.context[stepId]` guard). -/
def stepsFold (run : WorkflowRun) (acc : List (String × Value)) (sr : StepRun) :
    List (String × Value) :=
  match alookup run.context sr.stepId with
  | some v =>
    if sr.status == .completed && v.truthy then
      ainsert acc sr.stepId (stepsEntry v sr)
    else acc
  | none => acc

/-- `buildStepsContext` — collects every completed StepRun whose recorded
output is truthy in the run context. -/
def buildStepsContext (run : WorkflowRun) : List (String × Value) :=
  run.steps.foldl (stepsFold run) []

/-- One iteration of the `custom`-mode loop: a listed step id contributes an
output-only entry when its recorded output is truthy. -/
def customFold (run : WorkflowRun) (acc : List (String × Value)) (sid : String) :
    List (String × Value) :=
  match alookup run.context sid with
  | some v =>
    if v.truthy then ainsert acc sid (.obj [("output", v)]) else acc
  | none => acc

/-- The `custom`-mode steps projection over `includeOutputsFrom`. -/
def customStepsContext (run : WorkflowRun) (ids : List String) :
    List (String × Value) :=
  ids.foldl (customFold run) []

/-- The base context `{task, workflow: {id, runId}}`. -/
def baseContext (run : WorkflowRun) : List (String × Value) :=
  (match alookup run.context "task" with
   | some v => [("task", v)]
   | none => [])
  ++ [("workflow", Value.obj [("id", .str run.workflowId), ("runId", .str run.id)])]

/-- `progress || ''`. -/
def progressText : Option String → String
  | some p => p
  | none => ""

/-- `buildSessionContext` — projects run state per context mode. -/
def buildSessionContext (sessionConfig : StepSessionConfig) (run : WorkflowRun)
    (progress : Option String) : List (String × Value) :=
  match sessionConfig.context with
  | .minimal =>
    baseContext run ++ [("progress", .str (progressText progress))]
  | .full =>
    ainsert (ainsert run.context "progress" (.str (progressText progress)))
      "steps" (.obj (buildStepsContext run))
  | .custom =>
    let customContext := baseContext run ++ [("progress", .str (progressText progress))]
    match sessionConfig.includeOutputsFrom with
    | some ids => ainsert customContext "steps" (.obj (customStepsContext run ids))
    | none => customContext

/-- `getAgentDefinition` — looks the step's agent reference up in the
workflow's agent list. -/
def getAgentDefinition (run : WorkflowRun) (agentId : String) :
    Option WorkflowAgent :=
  match run.agents with
  | some l => l.find? (fun a => a.id == agentId)
  | none => none

/-- The agent definition resolved for a step (`step.agent!` with an absent
reference finding nothing). -/
def stepAgentDef (run : WorkflowRun) (step : WorkflowStep) : Option WorkflowAgent :=
  match step.agent with
  | some a => getAgentDefinition run a
  | none => none

/-- `getToolPolicyForAgent` — no restrictions without an agent definition or
role, else the role's tool filter. -/
def getToolPolicyForAgent (pst : PolicyStore) (agentDef : Option WorkflowAgent) :
    Except String ToolFilter × PolicyStore :=
  match agentDef with
  | none => (.ok ⟨none, none⟩, pst)
  | some a =>
    match a.role with
    | none => (.ok ⟨none, none⟩, pst)
    | some r => if r = "" then (.ok ⟨none, none⟩, pst) else getToolFilterForRole pst r

/-- `list?.join(', ') || default` as used for the tool-policy lines of the
placeholder output. -/
def joinOr (l : Option (List String)) (d : String) : String :=
  match l with
  | some xs =>
    let j := String.intercalate ", " xs
    if j = "" then d else j
  | none => d

/-- The Phase-1 placeholder agent output (the template literal of
`executeAgentStep`). -/
def agentPlaceholderOutput (step : WorkflowStep) (agentDef : Option WorkflowAgent)
    (cfg : StepSessionConfig) (filter : ToolFilter) (prompt : String) : String :=
  "Agent " ++ step.agent.getD "undefined" ++ " (role: " ++
    (match agentDef with
     | some a =>
       match a.role with
       | some r => if r = "" then "unknown" else r
       | none => "unknown"
     | none => "unknown") ++
  ") executed step " ++ step.id ++
  "\n\nSession Config:\n- Mode: " ++ modeToString cfg.mode ++
  "\n- Context: " ++ ctxToString cfg.context ++
  "\n- Cleanup: " ++ cleanupToString cfg.cleanup ++
  "\n- Timeout: " ++ toString cfg.timeout ++ "s" ++
  "\n\nTool Policy:\n- Allowed: " ++ joinOr filter.allowed "all" ++
  "\n- Denied: " ++ joinOr filter.denied "none" ++
  "\n\nPrompt:\n" ++ prompt ++
  "\n\nSTATUS: done\nOUTPUT: Placeholder result"

/-- The raw output an agent step produces for a given resolved tool filter
(session config from the step, progress from the store, prompt from the
rendered input template). -/
def agentRawOf (step : WorkflowStep) (run : WorkflowRun) (store : RunStore)
    (filter : ToolFilter) : String :=
  let cfg := buildSessionConfig step run.freshSessionDefault
  agentPlaceholderOutput step (stepAgentDef run step) cfg filter
    (renderTemplate (step.input.getD "") (buildSessionContext cfg run store.progress))

/-- Result of a successful step execution. -/
structure ExecResult where
  output : Value
  outputPath : String

/-- `executeAgentStep` — the full pipeline: resolve agent and session config,
load progress, build context, render the prompt, resolve the tool filter,
produce the (placeholder) output, parse it, validate acceptance criteria,
persist the artifact, append the progress log.  A thrown JS error becomes an
`Except.error` paired with the state as it was at the throw. -/
def executeAgentStep (sf : String → String) (yamlP jsonP : String → Option Value)
    (runsDir timestamp : String) (step : WorkflowStep) (run : WorkflowRun)
    (store : RunStore) (pst : PolicyStore) :
    Except String ExecResult × RunStore × PolicyStore :=
  let agentDef := stepAgentDef run step
  let sessionConfig := buildSessionConfig step run.freshSessionDefault
  match loadProgressFile sf run.id store with
  | .error e => (.error e, store, pst)
  | .ok progress =>
    let sessionContext := buildSessionContext sessionConfig run progress
    let prompt := renderTemplate (step.input.getD "") sessionContext
    match getToolPolicyForAgent pst agentDef with
    | (.error e, pst2) => (.error e, store, pst2)
    | (.ok filter, pst2) =>
      let result := agentPlaceholderOutput step agentDef sessionConfig filter prompt
      let parsed := parseStepOutput yamlP jsonP result step
      match validateAcceptanceCriteria step result with
      | some c =>
        (.error ("Acceptance criterion not met: \"" ++ c ++ "\""), store, pst2)
      | none =>
        match saveStepOutput sf runsDir run.id step.id result store with
        | .error e => (.error e, store, pst2)
        | .ok (outputPath, store2) =>
          match appendProgressFile sf run.id step.id timestamp result store2.progress with
          | .error e => (.error e, store2, pst2)
          | .ok newProgress =>
            (.ok ⟨parsed, outputPath⟩, { store2 with progress := newProgress }, pst2)

/-- `executeStep` — dispatch on the step type; only `agent` is implemented. -/
def executeStep (sf : String → String) (yamlP jsonP : String → Option Value)
    (runsDir timestamp : String) (step : WorkflowStep) (run : WorkflowRun)
    (store : RunStore) (pst : PolicyStore) :
    Except String ExecResult × RunStore × PolicyStore :=
  match step.type with
  | .agent => executeAgentStep sf yamlP jsonP runsDir timestamp step run store pst
  | .loop => (.error "Loop steps not yet implemented (Phase 4)", store, pst)
  | .gate => (.error "Gate steps not yet implemented (Phase 4)", store, pst)
  | .parallel => (.error "Parallel steps not yet implemented (Phase 4)", store, pst)

/- ===================================================================
   Verification fixtures and derived definitions
   =================================================================== -/

/-- A literal character run the scanner copies verbatim: it contains no
double opening brace and does not end in an opening brace (so it cannot
start or extend a placeholder match across a boundary). -/
def cleanLit : List Char → Bool
  | [] => true
  | [c] => c != '{'
  | c :: c2 :: rest => !(c == '{' && c2 == '{') && cleanLit (c2 :: rest)

/-- A decomposition of a template into literal runs and placeholders. -/
inductive Seg where
  | lit : String → Seg
  | ph : String → Seg
  deriving Repr, DecidableEq

/-- The template text a segment denotes (a placeholder is its raw content
wrapped in double braces). -/
def Seg.text : Seg → String
  | .lit s => s
  | .ph raw => "\x7b\x7b" ++ raw ++ "\x7d\x7d"

/-- The rendering of a single segment: a literal is copied; a placeholder is
replaced by the string form of the value its trimmed key resolves to, and
re-emitted around the trimmed key when the dot-path is unresolvable. -/
def Seg.render (ctx : List (String × Value)) : Seg → String
  | .lit s => s
  | .ph raw =>
    match getNestedValue ctx (jsTrim raw) with
    | some v => valueToString v
    | none => "\x7b\x7b" ++ jsTrim raw ++ "\x7d\x7d"

/-- Well-formedness of a segment: literal runs are clean, placeholder
contents are non-empty and free of closing braces. -/
def segOk : Seg → Bool
  | .lit s => cleanLit s.data
  | .ph raw => !raw.data.isEmpty && raw.data.all (fun c => c != '}')

/-- The template a segment list denotes. -/
def segsText (segs : List Seg) : String :=
  segs.foldr (fun sg acc => Seg.text sg ++ acc) ""

/-- The fully rendered form of a segment list. -/
def rendersText (ctx : List (String × Value)) (segs : List Seg) : String :=
  segs.foldr (fun sg acc => Seg.render ctx sg ++ acc) ""

/-- The fifty-record policies directory used to refute C8 as stated. -/
def cexDisk : List (String × ToolPolicy) :=
  (List.range 50).map (fun i => ("r" ++ toString i, ⟨"r" ++ toString i, ["Read"], [], none⟩))

/-- The step used to refute C4 as stated: an explicit session block whose
timeout sub-field is present but zero. -/
def timeoutZeroStep : WorkflowStep :=
  ⟨"s1", .agent, none, none, none, none, some ⟨none, none, none, some 0, none⟩,
   none, none⟩

/-- The run used to refute C5 as stated: step `s1` is completed and its
output is present in the run context, but that output is the empty string —
falsy in JS. -/
def emptyOutputRun : WorkflowRun :=
  { id := "run1", workflowId := "wf", taskId := "t1"
    context := [("s1", .str "")]
    steps := [⟨"s1", .completed, some 5⟩]
    agents := none
    freshSessionDefault := none }

/-- A full-context session config. -/
def fullCfg : StepSessionConfig := ⟨.fresh, .full, .delete, 600, none⟩

/-- The run used by the C5 witness: one completed step with a non-empty
recorded output. -/
def witnessRun : WorkflowRun :=
  { id := "runW", workflowId := "wf", taskId := "t1"
    context := [("s1", .str "out1"), ("task", .str "T")]
    steps := [⟨"s1", .completed, some 5⟩]
    agents := none
    freshSessionDefault := none }

/-- A custom-context session config including one recorded and one
unrecorded step id. -/
def customCfg : StepSessionConfig := ⟨.fresh, .custom, .delete, 600, some ["s1", "nope"]⟩

/-- The agent step used by the C1 witness: it declares one acceptance
criterion that the Phase-1 placeholder output cannot contain. -/
def missingCriterionStep : WorkflowStep :=
  ⟨"s1", .agent, some "a1", some "", none, some ["IMPOSSIBLE_TOKEN"], none, none, none⟩

/-- A pristine run used by the C1 witness. -/
def emptyRun : WorkflowRun :=
  { id := "run1", workflowId := "wf", taskId := "t1", context := [], steps := []
    agents := none, freshSessionDefault := none }

/- ===================================================================
   Helper lemmas
   =================================================================== -/

theorem alookup_ainsert_self {α : Type} (m : List (String × α)) (k : String) (v : α) :
    alookup (ainsert m k v) k = some v := by
  induction m with
  | nil => simp [ainsert, alookup]
  | cons hd tl ih =>
    obtain ⟨a, w⟩ := hd
    by_cases h : a = k <;> simp [ainsert, alookup, h, ih]

theorem alookup_ainsert_ne {α : Type} (m : List (String × α)) (k q : String) (v : α)
    (h : q ≠ k) : alookup (ainsert m k v) q = alookup m q := by
  induction m with
  | nil => simp [ainsert, alookup, Ne.symm h]
  | cons hd tl ih =>
    obtain ⟨a, w⟩ := hd
    by_cases ha : a = k
    · subst ha
      simp [ainsert, alookup, Ne.symm h]
    · simp [ainsert, alookup, ha, ih]

theorem alookup_aerase_self {α : Type} (m : List (String × α)) (k : String) :
    alookup (aerase m k) k = none := by
  induction m with
  | nil => rfl
  | cons hd tl ih =>
    obtain ⟨a, w⟩ := hd
    simp only [aerase, List.filter_cons] at ih ⊢
    by_cases h : a = k
    · subst h
      simpa using ih
    · have hb : (a != k) = true := bne_iff_ne.mpr h
      simp [hb, alookup, h, ih]

theorem jsOrNat_eq (o : Option Nat) (d : Nat) :
    jsOrNat o d = if o.getD 0 ≠ 0 then o.getD 0 else d := by
  cases o with
  | none => simp [jsOrNat]
  | some n =>
    by_cases h : n = 0 <;> simp [jsOrNat, h]

theorem loadDefaultsStep_disk_preserve (st : PolicyStore) (q : ToolPolicy)
    (role : String) (p : ToolPolicy) (h : alookup st.disk role = some p) :
    alookup (loadDefaultsStep st q).disk role = some p := by
  unfold loadDefaultsStep
  by_cases hq : q.role = role
  · subst hq
    simp [h]
  · by_cases hs : (alookup st.disk q.role).isSome
    · simp [hs, h]
    · simp [hs, alookup_ainsert_ne st.disk q.role role q (Ne.symm hq), h]

theorem loadDefaultsList_disk_preserve (ps : List ToolPolicy) (st : PolicyStore)
    (role : String) (p : ToolPolicy) (h : alookup st.disk role = some p) :
    alookup (ps.foldl loadDefaultsStep st).disk role = some p := by
  induction ps generalizing st with
  | nil => exact h
  | cons q qs ih => exact ih _ (loadDefaultsStep_disk_preserve st q role p h)

/- ===================================================================
   Claim theorems
   =================================================================== -/

/-- C2: `validateToolAccess` returns true when no policy exists for the role;
when a policy exists it returns false whenever the tool is in the denied list
regardless of the allowed list, otherwise true if the allowed list contains
the wildcard, otherwise true iff the tool is in the allowed list. -/
theorem validateToolAccess_resolution (st : PolicyStore) (role tool : String) :
    (∀ st2, getToolPolicy st role = (.ok none, st2) →
      validateToolAccess st role tool = (.ok true, st2)) ∧
    (∀ p st2, getToolPolicy st role = (.ok (some p), st2) →
      validateToolAccess st role tool =
        (.ok (if p.denied.contains tool then false
              else if p.allowed.contains "*" then true
              else p.allowed.contains tool), st2)) := by
  constructor
  · intro st2 h
    simp [validateToolAccess, h]
  · intro p st2 h
    simp [validateToolAccess, h]

/-- Witness for C2: an absent role is allowed every tool; a cached policy with
`Write` denied refuses `Write` even though denial wins before the allow list
is consulted. -/
theorem validateToolAccess_resolution_witness :
    validateToolAccess ⟨[], []⟩ "ghost" "exec" = (.ok true, ⟨[], []⟩) ∧
    validateToolAccess ⟨[("dev", ⟨"dev", ["Read", "Write"], ["Write"], none⟩)], []⟩
        "dev" "Write" =
      (.ok false, ⟨[("dev", ⟨"dev", ["Read", "Write"], ["Write"], none⟩)], []⟩) := by
  constructor
  · exact (validateToolAccess_resolution ⟨[], []⟩ "ghost" "exec").1 _ rfl
  · have h := (validateToolAccess_resolution
      ⟨[("dev", ⟨"dev", ["Read", "Write"], ["Write"], none⟩)], []⟩ "dev" "Write").2
      ⟨"dev", ["Read", "Write"], ["Write"], none⟩
      ⟨[("dev", ⟨"dev", ["Read", "Write"], ["Write"], none⟩)], []⟩ rfl
    simpa using h

/-- C6: `getToolFilterForRole` returns the empty filter when no policy exists;
the denied key is the denied list exactly when non-empty; the allowed key is
the allowed list exactly when non-empty and wildcard-free, so a wildcard
policy never yields an allowed key. -/
theorem getToolFilterForRole_spec (st : PolicyStore) (role : String) :
    (∀ st2, getToolPolicy st role = (.ok none, st2) →
      getToolFilterForRole st role = (.ok ⟨none, none⟩, st2)) ∧
    (∀ p st2, getToolPolicy st role = (.ok (some p), st2) →
      getToolFilterForRole st role =
        (.ok ⟨(if p.allowed ≠ [] ∧ ¬ p.allowed.contains "*" then some p.allowed else none),
              (if p.denied ≠ [] then some p.denied else none)⟩, st2)) ∧
    (∀ p st2 f, getToolPolicy st role = (.ok (some p), st2) →
      p.allowed.contains "*" = true →
      getToolFilterForRole st role = (.ok f, st2) →
      f.allowed = none) := by
  refine ⟨?_, ?_, ?_⟩
  · intro st2 h
    simp [getToolFilterForRole, h]
  · intro p st2 h
    simp [getToolFilterForRole, h, List.length_pos]
  · intro p st2 f h hw hf
    have hmem : "*" ∈ p.allowed := by simpa using hw
    simp only [getToolFilterForRole, h, Prod.mk.injEq, Except.ok.injEq] at hf
    obtain ⟨hf1, -⟩ := hf
    rw [← hf1]
    simp [hmem]

/-- Witness for C6: no policy gives the empty filter; a wildcard policy with a
non-empty denied list yields only a denied key. -/
theorem getToolFilterForRole_spec_witness :
    getToolFilterForRole ⟨[], []⟩ "ghost" = (.ok ⟨none, none⟩, ⟨[], []⟩) ∧
    getToolFilterForRole ⟨[("ops", ⟨"ops", ["*"], ["exec"], none⟩)], []⟩ "ops" =
      (.ok ⟨none, some ["exec"]⟩, ⟨[("ops", ⟨"ops", ["*"], ["exec"], none⟩)], []⟩) ∧
    (⟨none, some ["exec"]⟩ : ToolFilter).allowed = none := by
  refine ⟨?_, ?_, ?_⟩
  · exact (getToolFilterForRole_spec ⟨[], []⟩ "ghost").1 _ rfl
  · have h := (getToolFilterForRole_spec
      ⟨[("ops", ⟨"ops", ["*"], ["exec"], none⟩)], []⟩ "ops").2.1
      ⟨"ops", ["*"], ["exec"], none⟩
      ⟨[("ops", ⟨"ops", ["*"], ["exec"], none⟩)], []⟩ rfl
    simpa using h
  · exact (getToolFilterForRole_spec
      ⟨[("ops", ⟨"ops", ["*"], ["exec"], none⟩)], []⟩ "ops").2.2
      ⟨"ops", ["*"], ["exec"], none⟩
      ⟨[("ops", ⟨"ops", ["*"], ["exec"], none⟩)], []⟩
      ⟨none, some ["exec"]⟩ rfl rfl
      (by
        have h := (getToolFilterForRole_spec
          ⟨[("ops", ⟨"ops", ["*"], ["exec"], none⟩)], []⟩ "ops").2.1
          ⟨"ops", ["*"], ["exec"], none⟩
          ⟨[("ops", ⟨"ops", ["*"], ["exec"], none⟩)], []⟩ rfl
        simpa using h)

/-- C7: appending to a progress log whose byte size already exceeds the
10 MiB ceiling returns without error and leaves the log byte-for-byte
unchanged; at or below the ceiling the entry is appended, and the appended
entry is never empty, so the log grows monotonically. -/
theorem appendProgressFile_ceiling (sf : String → String)
    (runId stepId ts output content : String) (hid : validRunId sf runId = true) :
    appendProgressFile sf runId stepId ts output (some content) =
      .ok (some (if content.utf8ByteSize > MAX_PROGRESS_FILE_SIZE then content
                 else content ++ progressEntry stepId ts output)) ∧
    progressEntry stepId ts output ≠ "" := by
  constructor
  · simp only [appendProgressFile, hid, if_true]
    split <;> simp_all
  · intro h
    have hd := congrArg String.data h
    simp [progressEntry] at hd

/-- Witness for C7: a one-byte log is appended to; the ceiling test on it is
false so the if-form reduces to the appended content. -/
theorem appendProgressFile_ceiling_witness :
    appendProgressFile (fun s => s) "run1" "s1" "2026-01-01T00:00:00.000Z" "out"
        (some "x") =
      .ok (some (if ("x" : String).utf8ByteSize > MAX_PROGRESS_FILE_SIZE then "x"
                 else "x" ++ progressEntry "s1" "2026-01-01T00:00:00.000Z" "out")) ∧
    progressEntry "s1" "2026-01-01T00:00:00.000Z" "out" ≠ "" :=
  appendProgressFile_ceiling (fun s => s) "run1" "s1" "2026-01-01T00:00:00.000Z"
    "out" "x" (by decide)

/-- C9: deleting any default role fails with the protection error and changes
nothing; deleting a previously saved non-default role removes the record,
evicts the cache entry, and a subsequent get returns absent. -/
theorem deletePolicy_spec (st : PolicyStore) (role : String) :
    (DEFAULT_ROLES.contains (normalizeRole role) = true →
      deletePolicy st role =
        (.error ("Cannot delete default policy: " ++ normalizeRole role ++
          ". Default policies can only be modified, not deleted."), st)) ∧
    (∀ p, DEFAULT_ROLES.contains (normalizeRole role) = false →
      alookup st.disk (normalizeRole role) = some p →
      deletePolicy st role =
        (.ok (), ⟨aerase st.cache (normalizeRole role),
                  aerase st.disk (normalizeRole role)⟩) ∧
      getToolPolicy ⟨aerase st.cache (normalizeRole role),
                     aerase st.disk (normalizeRole role)⟩ role =
        (.ok none, ⟨aerase st.cache (normalizeRole role),
                    aerase st.disk (normalizeRole role)⟩)) := by
  constructor
  · intro h
    have hm : normalizeRole role ∈ DEFAULT_ROLES := by simpa using h
    simp [deletePolicy, hm]
  · intro p h hp
    have hm : normalizeRole role ∉ DEFAULT_ROLES := by simpa using h
    constructor
    · simp [deletePolicy, hm, hp]
    · simp [getToolPolicy, alookup_aerase_self]

/-- Witness for C9: deleting `planner` fails with the protection error;
deleting a saved custom role succeeds and the subsequent get is absent. -/
theorem deletePolicy_spec_witness :
    deletePolicy ⟨[], [("planner", ⟨"planner", ["*"], [], none⟩)]⟩ "planner" =
      (.error "Cannot delete default policy: planner. Default policies can only be modified, not deleted.",
       ⟨[], [("planner", ⟨"planner", ["*"], [], none⟩)]⟩) ∧
    (deletePolicy ⟨[("custom", ⟨"custom", ["Read"], [], none⟩)],
                   [("custom", ⟨"custom", ["Read"], [], none⟩)]⟩ "custom" =
      (.ok (), ⟨[], []⟩) ∧
     getToolPolicy (⟨[], []⟩ : PolicyStore) "custom" = (.ok none, ⟨[], []⟩)) := by
  constructor
  · have h := (deletePolicy_spec
      ⟨[], [("planner", ⟨"planner", ["*"], [], none⟩)]⟩ "planner").1 (by decide)
    simpa using h
  · have h := (deletePolicy_spec
      ⟨[("custom", ⟨"custom", ["Read"], [], none⟩)],
       [("custom", ⟨"custom", ["Read"], [], none⟩)]⟩ "custom").2
      ⟨"custom", ["Read"], [], none⟩ (by decide) rfl
    simpa using h

/-- C10: construction caches all five built-in default policies and never
clobbers an existing record, so a get for a default role made after
construction and before any save returns the built-in policy even when a
differing persisted override for that role exists — the override stays on
disk but is shadowed by the cache. -/
theorem constructor_cache_shadows (disk0 : List (String × ToolPolicy))
    (role : String) (hrole : role ∈ DEFAULT_ROLES) (p : ToolPolicy)
    (hover : alookup disk0 role = some p) :
    (getToolPolicy (mkStore disk0) role).1 =
      .ok (DEFAULT_POLICIES.find? (fun q => q.role == role)) ∧
    alookup (mkStore disk0).disk role = some p := by
  constructor
  · simp only [DEFAULT_ROLES, List.mem_cons, List.mem_singleton] at hrole
    rcases hrole with h | h | h | h | h | h <;> first | (subst h; rfl) | exact absurd h (by simp)
  · exact loadDefaultsList_disk_preserve DEFAULT_POLICIES ⟨[], disk0⟩ role p hover

/-- Witness for C10: with a differing `planner` override already on disk, a
freshly constructed store serves the built-in planner policy and leaves the
override record untouched. -/
theorem constructor_cache_shadows_witness :
    (getToolPolicy (mkStore [("planner", ⟨"planner", ["Edit"], [], none⟩)]) "planner").1 =
      .ok (DEFAULT_POLICIES.find? (fun q => q.role == "planner")) ∧
    alookup (mkStore [("planner", ⟨"planner", ["Edit"], [], none⟩)]).disk "planner" =
      some ⟨"planner", ["Edit"], [], none⟩ :=
  constructor_cache_shadows [("planner", ⟨"planner", ["Edit"], [], none⟩)] "planner"
    (by decide) ⟨"planner", ["Edit"], [], none⟩ rfl

/-- Counterexample to C8 as stated: after constructing the service over a
directory holding fifty custom records, saving a valid policy for `r0` — a
role that already has a persisted record — fails with the limit error,
because the exemption tests the in-memory cache (which holds only the five
defaults), not the persisted records. -/
theorem savePolicy_overwrite_cex :
    validatePolicy ⟨"r0", ["Read"], [], none⟩ = none ∧
    (alookup (mkStore cexDisk).disk "r0").isSome = true ∧
    (savePolicy (mkStore cexDisk) ⟨"r0", ["Read"], [], none⟩).1 =
      .error "Maximum policy limit (50) reached. Delete unused policies before creating new ones." ∧
    (savePolicy (mkStore cexDisk) ⟨"r0", ["Read"], [], none⟩).2 = mkStore cexDisk := by
  refine ⟨rfl, rfl, rfl, rfl⟩

/-- C8 amended: the limit exemption is keyed by the in-memory cache, not by
the persisted records: saving a valid policy whose normalized role is cached
always succeeds as an overwrite; when the role is not cached and the count of
persisted records has reached the maximum of 50, the save fails with the
limit error and neither the backing store nor the cache is mutated; when the
role is not cached and the count is below the maximum, the save succeeds. -/
theorem savePolicy_amended (st : PolicyStore) (p : ToolPolicy)
    (hv : validatePolicy p = none) :
    ((alookup st.cache (normalizeRole p.role)).isSome = true →
      savePolicy st p =
        (.ok (), ⟨ainsert st.cache (normalizeRole p.role) p,
                  ainsert st.disk (normalizeRole p.role) p⟩)) ∧
    ((alookup st.cache (normalizeRole p.role)).isSome = false →
      st.disk.length ≥ MAX_POLICIES →
      savePolicy st p =
        (.error ("Maximum policy limit (" ++ toString MAX_POLICIES ++
          ") reached. Delete unused policies before creating new ones."), st)) ∧
    ((alookup st.cache (normalizeRole p.role)).isSome = false →
      st.disk.length < MAX_POLICIES →
      savePolicy st p =
        (.ok (), ⟨ainsert st.cache (normalizeRole p.role) p,
                  ainsert st.disk (normalizeRole p.role) p⟩)) := by
  refine ⟨?_, ?_, ?_⟩
  · intro h
    obtain ⟨q, hq⟩ := Option.isSome_iff_exists.mp h
    simp [savePolicy, hv, hq]
  · intro h hlen
    cases hq : alookup st.cache (normalizeRole p.role) with
    | some q => rw [hq] at h; simp at h
    | none => simp [savePolicy, hv, hq, hlen]
  · intro h hlen
    cases hq : alookup st.cache (normalizeRole p.role) with
    | some q => rw [hq] at h; simp at h
    | none =>
      have hnl : ¬ st.disk.length ≥ MAX_POLICIES := Nat.not_le.mpr hlen
      simp [savePolicy, hv, hq, hnl]

/-- Witness for C8 amended: a cached role overwrites at the limit; an
uncached role fails at the limit with the store unchanged; an uncached role
below the limit is created. -/
theorem savePolicy_amended_witness :
    savePolicy ⟨[("dev", ⟨"dev", ["*"], [], none⟩)], [("dev", ⟨"dev", ["*"], [], none⟩)]⟩
        ⟨"dev", ["Read"], [], none⟩ =
      (.ok (), ⟨[("dev", ⟨"dev", ["Read"], [], none⟩)],
                [("dev", ⟨"dev", ["Read"], [], none⟩)]⟩) ∧
    savePolicy (mkStore cexDisk) ⟨"r0", ["Read"], [], none⟩ =
      (.error ("Maximum policy limit (" ++ toString MAX_POLICIES ++
        ") reached. Delete unused policies before creating new ones."), mkStore cexDisk) ∧
    savePolicy ⟨[], []⟩ ⟨"fresh", ["Read"], [], none⟩ =
      (.ok (), ⟨[("fresh", ⟨"fresh", ["Read"], [], none⟩)],
                [("fresh", ⟨"fresh", ["Read"], [], none⟩)]⟩) := by
  refine ⟨?_, ?_, ?_⟩
  · have h := (savePolicy_amended
      ⟨[("dev", ⟨"dev", ["*"], [], none⟩)], [("dev", ⟨"dev", ["*"], [], none⟩)]⟩
      ⟨"dev", ["Read"], [], none⟩ rfl).1 rfl
    simpa using h
  · have h := (savePolicy_amended (mkStore cexDisk) ⟨"r0", ["Read"], [], none⟩ rfl).2.1
      rfl (by decide)
    simpa using h
  · have h := (savePolicy_amended ⟨[], []⟩ ⟨"fresh", ["Read"], [], none⟩ rfl).2.2
      rfl (by decide)
    simpa using h

/-- Counterexample to C4 as stated: the session block declares
`timeout = 0`, so per the claim the resolved timeout should be that present
sub-field's value, 0; the code's JS `||` chain treats the present zero as
absent and resolves 600. -/
theorem buildSessionConfig_claim_cex :
    timeoutZeroStep.session = some ⟨none, none, none, some 0, none⟩ ∧
    (buildSessionConfig timeoutZeroStep none).timeout = 600 ∧
    (buildSessionConfig timeoutZeroStep none).timeout ≠
      ((some 0 : Option Nat).getD (timeoutZeroStep.timeout.getD 600)) := by
  refine ⟨rfl, rfl, by decide⟩

/-- C4 amended: the three-layer precedence holds as claimed, except that a
present-but-zero timeout (at either the session-block or the step level) is
treated as absent by the JS `||` defaulting: an explicit session block wins,
each absent sub-field independently defaulting to fresh / minimal / delete,
and the timeout resolving to the first nonzero of session.timeout,
step.timeout, 600; the legacy fresh-session boolean comes next; otherwise
the workflow default boolean (true when absent) picks the mode. -/
theorem buildSessionConfig_amended (step : WorkflowStep) (dflt : Option Bool) :
    (∀ sb, step.session = some sb →
      buildSessionConfig step dflt =
        { mode := sb.mode.getD .fresh
          context := sb.context.getD .minimal
          cleanup := sb.cleanup.getD .delete
          timeout := if sb.timeout.getD 0 ≠ 0 then sb.timeout.getD 0
                     else if step.timeout.getD 0 ≠ 0 then step.timeout.getD 0 else 600
          includeOutputsFrom := sb.includeOutputsFrom }) ∧
    (∀ b, step.session = none → step.fresh_session = some b →
      buildSessionConfig step dflt =
        { mode := if b then .fresh else .reuse
          context := .minimal
          cleanup := .delete
          timeout := if step.timeout.getD 0 ≠ 0 then step.timeout.getD 0 else 600
          includeOutputsFrom := none }) ∧
    (step.session = none → step.fresh_session = none →
      buildSessionConfig step dflt =
        { mode := if dflt.getD true then .fresh else .reuse
          context := .minimal
          cleanup := .delete
          timeout := if step.timeout.getD 0 ≠ 0 then step.timeout.getD 0 else 600
          includeOutputsFrom := none }) ∧
    (∀ sb m, step.session = some sb → sb.mode = some m →
      (buildSessionConfig step dflt).mode = m) := by
  refine ⟨?_, ?_, ?_, ?_⟩
  · intro sb h
    simp [buildSessionConfig, h, jsOrNat_eq]
  · intro b h hb
    simp [buildSessionConfig, h, hb, jsOrNat_eq]
  · intro h hb
    simp [buildSessionConfig, h, hb, jsOrNat_eq]
  · intro sb m h hm
    simp [buildSessionConfig, h, hm]

/-- Equation: rendering the empty character list yields the empty string. -/
theorem renderChars_nil (ctx : List (String × Value)) : renderChars ctx [] = "" := by
  rw [renderChars.eq_def]

/-- Equation: a character other than an opening brace is copied verbatim. -/
theorem renderChars_cons_ne (ctx : List (String × Value)) (c : Char) (l : List Char)
    (h : c ≠ '{') :
    renderChars ctx (c :: l) = String.singleton c ++ renderChars ctx l := by
  rw [renderChars.eq_def]
  split
  · rename_i rest heq
    rw [List.cons.injEq] at heq
    exact absurd heq.1 h
  · rename_i hno heq
    injection heq with h1 h2
    subst h1
    subst h2
    rfl
  · rename_i heq
    simp at heq

/-- Equation: an opening brace not followed by a second one is copied
verbatim (the scan advances one character). -/
theorem renderChars_brace_one (ctx : List (String × Value)) (c : Char) (l : List Char)
    (h : c ≠ '{') :
    renderChars ctx ('{' :: c :: l) = String.singleton '{' ++ renderChars ctx (c :: l) := by
  rw [renderChars.eq_def]
  split
  · rename_i rest heq
    rw [List.cons.injEq, List.cons.injEq] at heq
    exact absurd heq.2.1 h
  · rename_i hno heq
    injection heq with h1 h2
    subst h1
    subst h2
    rfl
  · rename_i heq
    simp at heq

theorem takeWhile_append_all {p : Char → Bool} {l : List Char} (r : List Char)
    (h : ∀ a ∈ l, p a = true) : (l ++ r).takeWhile p = l ++ r.takeWhile p := by
  induction l with
  | nil => simp
  | cons hd tl ih =>
    have hp : p hd = true := h hd (by simp)
    simp only [List.cons_append, List.takeWhile_cons, hp, if_true]
    rw [ih (fun a ha => h a (by simp [ha]))]

theorem dropWhile_append_all {p : Char → Bool} {l : List Char} (r : List Char)
    (h : ∀ a ∈ l, p a = true) : (l ++ r).dropWhile p = r.dropWhile p := by
  induction l with
  | nil => simp
  | cons hd tl ih =>
    have hp : p hd = true := h hd (by simp)
    simp only [List.cons_append, List.dropWhile_cons, hp, if_true]
    exact ih (fun a ha => h a (by simp [ha]))

/-- Equation: a well-formed placeholder (non-empty brace-free content closed
by a double closing brace) is replaced by the resolved value of its trimmed
key, or re-emitted around the trimmed key when unresolvable. -/
theorem renderChars_placeholder (ctx : List (String × Value)) (raw t : List Char)
    (hne : raw ≠ []) (hj : ∀ a ∈ raw, (a != '}') = true) :
    renderChars ctx ('{' :: '{' :: (raw ++ '}' :: '}' :: t)) =
      (match getNestedValue ctx (jsTrim raw.asString) with
       | some v => valueToString v
       | none => "\x7b\x7b" ++ jsTrim raw.asString ++ "\x7d\x7d") ++ renderChars ctx t := by
  rw [renderChars.eq_def]
  split
  · rename_i rest heq
    rw [List.cons.injEq, List.cons.injEq] at heq
    obtain ⟨-, -, hrest⟩ := heq
    subst hrest
    have htake : (raw ++ '}' :: '}' :: t).takeWhile (fun c => c != '}') = raw := by
      rw [takeWhile_append_all _ hj]
      simp
    have hdrop : (raw ++ '}' :: '}' :: t).dropWhile (fun c => c != '}') = '}' :: '}' :: t := by
      rw [dropWhile_append_all _ hj]
      simp
    simp only [htake, hdrop]
    rw [if_pos ⟨hne, by simp⟩]
    simp
  · rename_i hno heq
    exfalso
    injection heq with h1 h2
    exact hno (raw ++ '}' :: '}' :: t) h1.symm h2.symm
  · rename_i heq
    simp at heq

theorem data_asString (l : List Char) : l.asString.data = l := rfl

theorem data_singleton (c : Char) : (String.singleton c).data = [c] := rfl

/-- A clean literal prefix is copied verbatim and scanning continues on the
remainder. -/
theorem renderChars_clean_prefix (ctx : List (String × Value)) (s t : List Char)
    (h : cleanLit s = true) :
    renderChars ctx (s ++ t) = s.asString ++ renderChars ctx t := by
  induction s with
  | nil =>
    apply String.ext
    simp [String.data_append, data_asString]
  | cons c s2 ih =>
    cases s2 with
    | nil =>
      have hc : c ≠ '{' := by simpa [cleanLit] using h
      rw [List.cons_append, List.nil_append, renderChars_cons_ne ctx c t hc]
      rfl
    | cons c2 s3 =>
      have hparts : (¬ c = '{' ∨ ¬ c2 = '{') ∧ cleanLit (c2 :: s3) = true := by
        simpa [cleanLit] using h
      by_cases hc : c = '{'
      · subst hc
        have hc2 : c2 ≠ '{' := hparts.1.resolve_left (by simp)
        rw [show ('{' :: c2 :: s3) ++ t = '{' :: c2 :: (s3 ++ t) from rfl]
        rw [renderChars_brace_one ctx c2 (s3 ++ t) hc2]
        rw [show c2 :: (s3 ++ t) = (c2 :: s3) ++ t from rfl, ih hparts.2]
        apply String.ext
        simp [String.data_append, data_asString, data_singleton]
      · rw [show (c :: c2 :: s3) ++ t = c :: ((c2 :: s3) ++ t) from rfl]
        rw [renderChars_cons_ne ctx c _ hc, ih hparts.2]
        apply String.ext
        simp [String.data_append, data_asString, data_singleton]

theorem renderChars_segments (ctx : List (String × Value)) (segs : List Seg)
    (h : ∀ sg ∈ segs, segOk sg = true) :
    renderChars ctx (segsText segs).data = rendersText ctx segs := by
  induction segs with
  | nil => exact renderChars_nil ctx
  | cons sg rest ih =>
    have hsg : segOk sg = true := h sg (by simp)
    have hrest : ∀ s ∈ rest, segOk s = true := fun s hs => h s (by simp [hs])
    cases sg with
    | lit s =>
      have hok : cleanLit s.data = true := by simpa [segOk] using hsg
      have hdata : (segsText (Seg.lit s :: rest)).data = s.data ++ (segsText rest).data := by
        simp [segsText, Seg.text, String.data_append]
      rw [hdata, renderChars_clean_prefix ctx _ _ hok, ih hrest]
      rfl
    | ph raw =>
      have h1 : raw.data ≠ [] := by
        simp [segOk] at hsg
        simpa using hsg.1
      have h2 : ∀ a ∈ raw.data, (a != '}') = true := by
        simp [segOk] at hsg
        intro a ha
        simpa using hsg.2 a ha
      have hob : ("\x7b\x7b" : String).data = ['{', '{'] := rfl
      have hcb : ("\x7d\x7d" : String).data = ['}', '}'] := rfl
      have hdata : (segsText (Seg.ph raw :: rest)).data =
          '{' :: '{' :: (raw.data ++ '}' :: '}' :: (segsText rest).data) := by
        simp [segsText, Seg.text, String.data_append, hob, hcb]
      rw [hdata, renderChars_placeholder ctx _ _ h1 h2, ih hrest]
      rfl

/-- Counterexample to C3 as stated: the key `missing` is unresolvable in the
empty context, yet the placeholder written with interior whitespace is not
left untouched — the callback re-emits the braces around the trimmed key,
stripping the whitespace. -/
theorem renderTemplate_untouched_cex :
    getNestedValue [] "missing" = none ∧
    renderTemplate "\x7b\x7b missing \x7d\x7d" [] = "\x7b\x7bmissing\x7d\x7d" ∧
    renderTemplate "\x7b\x7b missing \x7d\x7d" [] ≠ "\x7b\x7b missing \x7d\x7d" := by
  have hd : ("\x7b\x7b missing \x7d\x7d" : String).data =
      '{' :: '{' :: ((" missing " : String).data ++ '}' :: '}' :: ([] : List Char)) := by
    decide
  have hr : renderTemplate "\x7b\x7b missing \x7d\x7d" [] = "\x7b\x7bmissing\x7d\x7d" := by
    show renderChars [] ("\x7b\x7b missing \x7d\x7d" : String).data = _
    rw [hd, renderChars_placeholder [] _ _ (by decide) (by decide), renderChars_nil]
    decide
  refine ⟨rfl, hr, ?_⟩
  rw [hr]
  decide

/-- C3 amended: for every template decomposed into clean literal runs and
well-formed placeholders, rendering replaces each placeholder whose trimmed
dot-path resolves in the context with the string form of the resolved value,
and re-emits every unresolvable placeholder as the braces around its trimmed
key — whitespace inside the braces is normalized away, the rest of the
placeholder text is preserved, and no error or blank substitution occurs. -/
theorem renderTemplate_amended (ctx : List (String × Value)) (segs : List Seg)
    (h : ∀ sg ∈ segs, segOk sg = true) :
    renderTemplate (segsText segs) ctx = rendersText ctx segs :=
  renderChars_segments ctx segs h

/-- Witness for C3 amended: a template with a resolvable dotted placeholder
and an unresolvable whitespace-padded one renders to the substituted value
and the trimmed re-emitted placeholder. -/
theorem renderTemplate_amended_witness :
    renderTemplate
        (segsText [.lit "hi ", .ph "a.b", .lit "! ", .ph " missing "])
        [("a", .obj [("b", .str "x")])] =
      "hi x! \x7b\x7bmissing\x7d\x7d" :=
  (renderTemplate_amended [("a", .obj [("b", .str "x")])]
    [.lit "hi ", .ph "a.b", .lit "! ", .ph " missing "] (by decide)).trans (by decide)

/-- Witness for C4 amended: an explicit `reuse` session block overrides a
workflow default of fresh and keeps its nonzero timeout; the legacy flag set
to false gives reuse; with neither present a workflow default of false gives
reuse with the step timeout. -/
theorem buildSessionConfig_amended_witness :
    buildSessionConfig
        ⟨"s1", .agent, none, none, none, none,
         some ⟨some .reuse, none, none, some 30, none⟩, none, none⟩ (some true) =
      ⟨.reuse, .minimal, .delete, 30, none⟩ ∧
    buildSessionConfig
        ⟨"s2", .agent, none, none, none, none, none, some false, none⟩ none =
      ⟨.reuse, .minimal, .delete, 600, none⟩ ∧
    buildSessionConfig
        ⟨"s3", .agent, none, none, none, none, none, none, some 7⟩ (some false) =
      ⟨.reuse, .minimal, .delete, 7, none⟩ := by
  refine ⟨?_, ?_, ?_⟩
  · have h := (buildSessionConfig_amended
      ⟨"s1", .agent, none, none, none, none,
       some ⟨some .reuse, none, none, some 30, none⟩, none, none⟩ (some true)).1
      ⟨some .reuse, none, none, some 30, none⟩ rfl
    simpa using h
  · have h := (buildSessionConfig_amended
      ⟨"s2", .agent, none, none, none, none, none, some false, none⟩ none).2.1
      false rfl rfl
    simpa using h
  · have h := (buildSessionConfig_amended
      ⟨"s3", .agent, none, none, none, none, none, none, some 7⟩ (some false)).2.2.1
      rfl rfl
    simpa using h

theorem stepsFold_lookup_ne (run : WorkflowRun) (acc : List (String × Value))
    (sr : StepRun) (k : String) (h : sr.stepId ≠ k) :
    alookup (stepsFold run acc sr) k = alookup acc k := by
  unfold stepsFold
  cases hv : alookup run.context sr.stepId with
  | none => rfl
  | some v =>
    dsimp only
    by_cases hg : (sr.status == StepStatus.completed && v.truthy) = true
    · rw [if_pos hg]
      exact alookup_ainsert_ne acc sr.stepId k _ (Ne.symm h)
    · rw [if_neg hg]

theorem stepsFold_foldl_notin (run : WorkflowRun) :
    ∀ (l : List StepRun) (acc : List (String × Value)) (k : String),
    (∀ sr ∈ l, sr.stepId ≠ k) →
    alookup (l.foldl (stepsFold run) acc) k = alookup acc k := by
  intro l
  induction l with
  | nil => intro acc k _; rfl
  | cons x xs ih =>
    intro acc k h
    simp only [List.foldl_cons]
    rw [ih _ k (fun sr hs => h sr (by simp [hs]))]
    exact stepsFold_lookup_ne run acc x k (h x (by simp))

theorem stepsFold_foldl_mem (run : WorkflowRun) :
    ∀ (l : List StepRun) (acc : List (String × Value)) (sr : StepRun) (v : Value),
    sr ∈ l → (l.map StepRun.stepId).Nodup →
    sr.status = .completed → alookup run.context sr.stepId = some v →
    v.truthy = true →
    alookup (l.foldl (stepsFold run) acc) sr.stepId = some (stepsEntry v sr) := by
  intro l
  induction l with
  | nil => intro acc sr v hm; simp at hm
  | cons x xs ih =>
    intro acc sr v hm hnd hst hv htr
    have hnd2 : x.stepId ∉ xs.map StepRun.stepId ∧ (xs.map StepRun.stepId).Nodup := by
      simpa [List.nodup_cons] using hnd
    simp only [List.foldl_cons]
    rcases List.mem_cons.mp hm with h | h
    · subst h
      have hnox : ∀ y ∈ xs, y.stepId ≠ sr.stepId := by
        intro y hy he
        exact hnd2.1 (he ▸ List.mem_map_of_mem StepRun.stepId hy)
      rw [stepsFold_foldl_notin run xs _ sr.stepId hnox]
      unfold stepsFold
      rw [hv]
      dsimp only
      have hg : (sr.status == StepStatus.completed && v.truthy) = true := by
        simp [hst, htr]
      rw [if_pos hg]
      exact alookup_ainsert_self acc sr.stepId _
    · exact ih _ sr v h hnd2.2 hst hv htr

theorem stepsFold_foldl_isSome (run : WorkflowRun) :
    ∀ (l : List StepRun) (acc : List (String × Value)) (k : String),
    (alookup (l.foldl (stepsFold run) acc) k).isSome = true →
    (alookup acc k).isSome = true ∨
      ∃ sr, sr ∈ l ∧ sr.stepId = k ∧ sr.status = .completed ∧
        truthyOpt (alookup run.context k) = true := by
  intro l
  induction l with
  | nil => intro acc k h; exact Or.inl h
  | cons x xs ih =>
    intro acc k h
    simp only [List.foldl_cons] at h
    rcases ih _ k h with h1 | ⟨sr, hm, hrest⟩
    · unfold stepsFold at h1
      cases hv : alookup run.context x.stepId with
      | none =>
        rw [hv] at h1
        exact Or.inl h1
      | some v =>
        rw [hv] at h1
        dsimp only at h1
        by_cases hg : (x.status == StepStatus.completed && v.truthy) = true
        · rw [if_pos hg] at h1
          by_cases hk : x.stepId = k
          · right
            have hgp : x.status = StepStatus.completed ∧ v.truthy = true := by
              simpa using hg
            refine ⟨x, by simp, hk, hgp.1, ?_⟩
            rw [← hk, hv]
            simpa [truthyOpt] using hgp.2
          · rw [alookup_ainsert_ne acc x.stepId k _ (fun he => hk he.symm)] at h1
            exact Or.inl h1
        · rw [if_neg hg] at h1
          exact Or.inl h1
    · exact Or.inr ⟨sr, by simp [hm], hrest⟩

theorem customFold_foldl_lookup (run : WorkflowRun) :
    ∀ (l : List String) (acc : List (String × Value)) (k : String),
    alookup (l.foldl (customFold run) acc) k =
      if k ∈ l ∧ truthyOpt (alookup run.context k) = true then
        (alookup run.context k).map (fun v => Value.obj [("output", v)])
      else alookup acc k := by
  intro l
  induction l with
  | nil => intro acc k; simp
  | cons x xs ih =>
    intro acc k
    simp only [List.foldl_cons]
    rw [ih]
    by_cases hk1 : k ∈ xs ∧ truthyOpt (alookup run.context k) = true
    · rw [if_pos hk1, if_pos ⟨by simp [hk1.1], hk1.2⟩]
    · rw [if_neg hk1]
      by_cases hkx : k = x
      · subst hkx
        by_cases htr : truthyOpt (alookup run.context k) = true
        · rw [if_pos ⟨by simp, htr⟩]
          unfold customFold
          cases hv : alookup run.context k with
          | none =>
            rw [hv] at htr
            simp [truthyOpt] at htr
          | some v =>
            dsimp only
            have hb : v.truthy = true := by
              rw [hv] at htr
              simpa [truthyOpt] using htr
            rw [if_pos hb, alookup_ainsert_self acc k _]
            rfl
        · rw [if_neg (fun hh => htr hh.2)]
          unfold customFold
          cases hv : alookup run.context k with
          | none => rfl
          | some v =>
            dsimp only
            have hb : ¬ v.truthy = true := by
              rw [hv] at htr
              simpa [truthyOpt] using htr
            rw [if_neg hb]
      · rw [if_neg (by
          intro hh
          rcases List.mem_cons.mp hh.1 with h | h
          · exact hkx h
          · exact hk1 ⟨h, hh.2⟩)]
        unfold customFold
        cases hv : alookup run.context x with
        | none => rfl
        | some v =>
          dsimp only
          by_cases hb : v.truthy = true
          · rw [if_pos hb]
            exact alookup_ainsert_ne acc x k _ hkx
          · rw [if_neg hb]

/-- Counterexample to C5 as stated: in `emptyOutputRun` the step `s1` is
completed and its output is present in the run context, but the output is the
empty string — falsy in JS — so the full-context `steps` mapping omits the
entry the claim requires. -/
theorem buildSessionContext_presence_cex :
    alookup emptyOutputRun.context "s1" = some (.str "") ∧
    (⟨"s1", .completed, some 5⟩ : StepRun) ∈ emptyOutputRun.steps ∧
    buildStepsContext emptyOutputRun = [] ∧
    alookup (buildSessionContext fullCfg emptyOutputRun none) "steps" =
      some (.obj []) := by
  refine ⟨rfl, by decide, rfl, rfl⟩

/-- C5 amended: the guard on step outputs is JS truthiness, not presence.
In full mode the built context is the run context with `progress` and a
`steps` mapping upserted, and the steps mapping holds an entry (output,
status, duration) exactly for the completed StepRuns whose recorded output
is truthy; in custom mode the steps mapping holds an output-only entry for
exactly the listed ids whose recorded output is truthy, ids without a truthy
recorded output being silently omitted, never an error. -/
theorem buildSessionContext_amended (run : WorkflowRun) (progress : Option String)
    (cfg : StepSessionConfig) (hnd : (run.steps.map StepRun.stepId).Nodup) :
    (cfg.context = .full →
      alookup (buildSessionContext cfg run progress) "steps" =
        some (.obj (buildStepsContext run)) ∧
      alookup (buildSessionContext cfg run progress) "progress" =
        some (.str (progressText progress)) ∧
      (∀ k, k ≠ "progress" → k ≠ "steps" →
        alookup (buildSessionContext cfg run progress) k = alookup run.context k) ∧
      (∀ sr v, sr ∈ run.steps → sr.status = .completed →
        alookup run.context sr.stepId = some v → v.truthy = true →
        alookup (buildStepsContext run) sr.stepId = some (stepsEntry v sr)) ∧
      (∀ k, (alookup (buildStepsContext run) k).isSome = true →
        ∃ sr, sr ∈ run.steps ∧ sr.stepId = k ∧ sr.status = .completed ∧
          truthyOpt (alookup run.context k) = true)) ∧
    (∀ ids, cfg.context = .custom → cfg.includeOutputsFrom = some ids →
      alookup (buildSessionContext cfg run progress) "steps" =
        some (.obj (customStepsContext run ids)) ∧
      (∀ k, alookup (customStepsContext run ids) k =
        if k ∈ ids ∧ truthyOpt (alookup run.context k) = true then
          (alookup run.context k).map (fun v => Value.obj [("output", v)])
        else none)) := by
  constructor
  · intro hf
    have hb : buildSessionContext cfg run progress =
        ainsert (ainsert run.context "progress" (.str (progressText progress)))
          "steps" (.obj (buildStepsContext run)) := by
      simp [buildSessionContext, hf]
    refine ⟨?_, ?_, ?_, ?_, ?_⟩
    · rw [hb]
      exact alookup_ainsert_self _ _ _
    · rw [hb, alookup_ainsert_ne _ _ _ _ (by decide)]
      exact alookup_ainsert_self _ _ _
    · intro k hk1 hk2
      rw [hb, alookup_ainsert_ne _ _ _ _ hk2, alookup_ainsert_ne _ _ _ _ hk1]
    · intro sr v hm hst hv htr
      exact stepsFold_foldl_mem run run.steps [] sr v hm hnd hst hv htr
    · intro k h
      rcases stepsFold_foldl_isSome run run.steps [] k h with h1 | h2
      · simp [alookup] at h1
      · exact h2
  · intro ids hc hio
    have hb : buildSessionContext cfg run progress =
        ainsert (baseContext run ++ [("progress", .str (progressText progress))])
          "steps" (.obj (customStepsContext run ids)) := by
      simp [buildSessionContext, hc, hio]
    constructor
    · rw [hb]
      exact alookup_ainsert_self _ _ _
    · intro k
      have h := customFold_foldl_lookup run ids [] k
      simpa [customStepsContext, alookup] using h

/-- Witness for C5 amended: witnessRun's completed step `s1` with truthy
output `out1` appears in the full-mode steps mapping; in custom mode the
listed recorded id `s1` carries its output and the unrecorded id `nope` is
silently omitted. -/
theorem buildSessionContext_amended_witness :
    alookup (buildSessionContext fullCfg witnessRun (some "PROG")) "steps" =
      some (.obj (buildStepsContext witnessRun)) ∧
    alookup (buildStepsContext witnessRun) "s1" =
      some (stepsEntry (.str "out1") ⟨"s1", .completed, some 5⟩) ∧
    alookup (buildSessionContext customCfg witnessRun (some "PROG")) "steps" =
      some (.obj (customStepsContext witnessRun ["s1", "nope"])) ∧
    alookup (customStepsContext witnessRun ["s1", "nope"]) "s1" =
      some (.obj [("output", .str "out1")]) ∧
    alookup (customStepsContext witnessRun ["s1", "nope"]) "nope" = none := by
  have hf := (buildSessionContext_amended witnessRun (some "PROG") fullCfg (by decide)).1 rfl
  have hc := (buildSessionContext_amended witnessRun (some "PROG") customCfg (by decide)).2
    ["s1", "nope"] rfl rfl
  refine ⟨hf.1, ?_, hc.1, ?_, ?_⟩
  · exact hf.2.2.2.1 ⟨"s1", .completed, some 5⟩ (.str "out1") (by decide) rfl rfl rfl
  · exact (hc.2 "s1").trans rfl
  · exact (hc.2 "nope").trans rfl

/-- C1: executing an agent step whose raw output misses some declared
acceptance criterion fails with the acceptance error naming the first unmet
criterion, and the run's persisted state — the step artifact directory and
the progress log — is returned exactly as it was before the step: neither is
written. -/
theorem executeStep_acceptance_abort (sf : String → String)
    (yamlP jsonP : String → Option Value) (runsDir ts : String)
    (step : WorkflowStep) (run : WorkflowRun) (store : RunStore)
    (pst : PolicyStore) (filter : ToolFilter) (pst2 : PolicyStore) (c0 : String)
    (htype : step.type = .agent)
    (hid : validRunId sf run.id = true)
    (hpol : getToolPolicyForAgent pst (stepAgentDef run step) = (.ok filter, pst2))
    (hcrit : (step.acceptance_criteria.getD []).find?
        (fun c => ! strIncludes (agentRawOf step run store filter) c) = some c0) :
    executeStep sf yamlP jsonP runsDir ts step run store pst =
      (.error ("Acceptance criterion not met: \"" ++ c0 ++ "\""), store, pst2) := by
  have hval : validateAcceptanceCriteria step
      (agentPlaceholderOutput step (stepAgentDef run step)
        (buildSessionConfig step run.freshSessionDefault) filter
        (renderTemplate (step.input.getD "")
          (buildSessionContext (buildSessionConfig step run.freshSessionDefault) run
            store.progress))) = some c0 := hcrit
  unfold executeStep
  rw [htype]
  dsimp only
  unfold executeAgentStep
  rw [show loadProgressFile sf run.id store = .ok store.progress from by
    simp [loadProgressFile, hid]]
  dsimp only
  rw [hpol]
  dsimp only
  rw [hval]

/-- Witness for C1: on a pristine run, the agent step declaring the
unsatisfiable criterion `IMPOSSIBLE_TOKEN` fails with the acceptance error
naming it, and both the run store and the policy store come back unchanged. -/
theorem executeStep_acceptance_abort_witness :
    executeStep (fun s => s) (fun _ => none) (fun _ => none) "runs"
        "2026-01-01T00:00:00.000Z" missingCriterionStep emptyRun ⟨none, []⟩ ⟨[], []⟩ =
      (.error "Acceptance criterion not met: \"IMPOSSIBLE_TOKEN\"", ⟨none, []⟩, ⟨[], []⟩) := by
  have hraw : agentRawOf missingCriterionStep emptyRun ⟨none, []⟩ ⟨none, none⟩ =
      "Agent a1 (role: unknown) executed step s1\n\nSession Config:\n- Mode: fresh\n- Context: minimal\n- Cleanup: delete\n- Timeout: 600s\n\nTool Policy:\n- Allowed: all\n- Denied: none\n\nPrompt:\n\n\nSTATUS: done\nOUTPUT: Placeholder result" := by
    unfold agentRawOf
    rw [show (missingCriterionStep.input.getD "") = "" from rfl]
    unfold renderTemplate
    rw [show ("" : String).data = [] from rfl]
    dsimp only
    rw [renderChars_nil]
    rfl
  have hcrit : (missingCriterionStep.acceptance_criteria.getD []).find?
      (fun c => ! strIncludes
        (agentRawOf missingCriterionStep emptyRun ⟨none, []⟩ ⟨none, none⟩) c) =
      some "IMPOSSIBLE_TOKEN" := by
    rw [hraw]
    decide
  exact executeStep_acceptance_abort (fun s => s) (fun _ => none) (fun _ => none)
    "runs" "2026-01-01T00:00:00.000Z" missingCriterionStep emptyRun ⟨none, []⟩
    ⟨[], []⟩ ⟨none, none⟩ ⟨[], []⟩ "IMPOSSIBLE_TOKEN" rfl (by decide) rfl hcrit

end VeritasKanban
